import Mathlib

/-!
Shallow embedding of `src/MockService.ts` (node-stream-service).

The service distributes "tracked assets" along input polylines, advances them
one tick per page cycle, and pages out the current observations.

Modelling conventions:
* JS numbers are modelled as `ℝ`; counters and indices as `ℕ`.
* `arr[i]` is modelled by `List.get?`; dereferencing a JS `undefined`
  (a thrown `TypeError`) is modelled by `Except.error ()`.
* `Math.random()` is modelled by an explicit stream `rand : ℕ → ℝ` together
  with a running index, threaded through the functions that consume it.
* The flat six-slot-per-track state array `_trackInfos` is modelled as a list
  of `TrackRecord` structures (one per track, same iteration order).
* Serialization (`JSON.stringify`) is out of scope; `next` returns the
  structured page (the `features` array, holes/`undefined` as `none`).
-/

namespace MockService

/-- A vertex `[x, y]` (a `number[]` pair in the source). -/
abbrev Vertex : Type := ℝ × ℝ

/-- A polyline geometry: `paths: number[][][]`.  The input features' attribute
maps are never read by the service, so a feature is modelled by its
geometry. -/
structure Polyline where
  paths : List (List Vertex)

/-- `MockServiceConfig`. -/
structure MockServiceConfig where
  trackedAssets : ℕ
  pageSize : ℕ
  distStep : ℝ

/-- `MockService._defaults()`: `trackedAssets: 10000, pageSize: 10000,
distStep: 0.01 * 2`. -/
noncomputable def defaults : MockServiceConfig :=
  ⟨10000, 10000, 0.01 * 2⟩

/-- One track's slice of `_trackInfos` (slots `i .. i+5`). -/
structure TrackRecord where
  featureIndex : ℕ
  pathIndex : ℕ
  vertexIndex : ℕ
  distanceToNextVertex : ℝ
  accumulatedDistance : ℝ
  speed : ℝ

/-- The attribute object of an output observation. -/
structure Attributes where
  objectid : ℕ
  trackid : ℕ
  heading : ℝ
  type : ℝ
  active : ℝ

/-- A `PointFeature` observation: attributes plus a point geometry. -/
structure PointFeature where
  attributes : Attributes
  x : ℝ
  y : ℝ

/-- `Math.atan2(y, x)`, modelled by the argument of the complex number
`x + y*I` (both have range `(-π, π]` and send the origin to `0`). -/
noncomputable def jsAtan2 (y x : ℝ) : ℝ := Complex.arg ⟨x, y⟩

/-- `getAzimuth = (dx, dy) => Math.atan2(dy, dx) - Math.PI / 2`. -/
noncomputable def getAzimuth (dx dy : ℝ) : ℝ := jsAtan2 dy dx - Real.pi / 2

/-- `getIsActive = () => Math.random() < 0.05 ? 1 : 0`, with the random draw
passed in explicitly. -/
noncomputable def getIsActive (r : ℝ) : ℝ := if r < 0.05 then 1 else 0

/-- `Math.round`, on reals. -/
noncomputable def jsRound (x : ℝ) : ℝ := ⌊x + 1 / 2⌋

/-- `NumCyclesBetweenActiveUpdate = 400`. -/
def NumCyclesBetweenActiveUpdate : ℕ := 400

/-- `_createId()`: returns the current `_idCounter` and the updated counter
`(_idCounter + 1) % 0xfffffffe`. -/
def createId (c : ℕ) : ℕ × ℕ := (c, (c + 1) % 4294967294)

/-- The id counter value after `n` calls to `_createId`, starting from the
constructor's `_idCounter = 0x1`; this is also the id returned by the
`(n+1)`-th call. -/
def idAfter : ℕ → ℕ
  | 0 => 1
  | n + 1 => (createId (idAfter n)).2

/-- Euclidean length of the segment from `(x0, y0)` to `(x1, y1)`
(`Math.sqrt((x1-x0)*(x1-x0) + (y1-y0)*(y1-y0))`). -/
noncomputable def segLen (x0 y0 x1 y1 : ℝ) : ℝ :=
  Real.sqrt ((x1 - x0) * (x1 - x0) + (y1 - y0) * (y1 - y0))

/-- `_getNumberOfVertices`: total vertex count over the polyline's paths. -/
def getNumberOfVertices (p : Polyline) : ℕ :=
  (p.paths.map List.length).sum

/-- `_sumPolylineVertices`: total vertex count over all features. -/
def sumPolylineVertices (fs : List Polyline) : ℕ :=
  (fs.map getNumberOfVertices).sum

/-- `Math.max(Math.floor(numOfTrackedAssets * numberOfVertices / vertexSum), 1)`. -/
noncomputable def quotaFor (T v V : ℕ) : ℕ :=
  max ⌊(T : ℝ) * v / V⌋₊ 1

/-- `Math.floor(0.8 * numberOfVertices / numOfTracksPerFeature)`. -/
noncomputable def spacingFor (v q : ℕ) : ℕ :=
  ⌊(0.8 : ℝ) * v / q⌋₊

/-- `_getNextTrackStart`.  `error` models the `TypeError` thrown when
`currentPath` is out of bounds (reading `.length` of `undefined`); `ok none`
models the `null` return. -/
def getNextTrackStart (polyline : Polyline) (spacing curPath curVertex : ℕ) :
    Except Unit (Option (ℕ × ℕ)) :=
  match polyline.paths.get? curPath with
  | none => .error ()
  | some path =>
    if spacing + curVertex < path.length - 1 then
      .ok (some (curPath, spacing + curVertex))
    else
      match polyline.paths.get? (curPath + 1) with
      | none => .ok none
      | some p2 => if p2.length < 2 then .ok none else .ok (some (curPath + 1, 0))

/-- The per-track mutable counters shared by allocation: the running dense
`trackIndex` (`TRACKID`), the id counter, and the random-stream index. -/
structure AllocState where
  trackIndex : ℕ
  idCounter : ℕ
  randIdx : ℕ

/-- One iteration of `_initialize`'s inner loop before the spacing advance:
read the current segment's endpoints, build the `TrackRecord` pushed onto
`_trackInfos` and the observation pushed onto `_lastObservations`.  `error`
models the `TypeError` thrown when the path or either vertex is missing. -/
noncomputable def placeTrack (rand : ℕ → ℝ) (distStep : ℝ)
    (featureIndex curPath curVertex : ℕ) (polyline : Polyline)
    (st : AllocState) : Except Unit (TrackRecord × PointFeature × AllocState) :=
  match polyline.paths.get? curPath with
  | none => .error ()
  | some path =>
    match path.get? curVertex, path.get? (curVertex + 1) with
    | some v, some vn =>
      let x0 := v.1
      let y0 := v.2
      let x1 := vn.1
      let y1 := vn.2
      let d := segLen x0 y0 x1 y1
      let sp := d * distStep
      let t : TrackRecord := ⟨featureIndex, curPath, curVertex, d, 0, sp⟩
      let ob : PointFeature :=
        ⟨⟨(createId st.idCounter).1, st.trackIndex, getAzimuth (x1 - x0) (y1 - y0),
          jsRound (rand st.randIdx * 5), getIsActive (rand (st.randIdx + 1))⟩, x0, y0⟩
      .ok (t, ob, ⟨st.trackIndex + 1, (createId st.idCounter).2, st.randIdx + 2⟩)
    | _, _ => .error ()

/-- `_initialize`'s inner `for` loop over one feature: place up to `quota`
tracks, advancing by `_getNextTrackStart` and stopping early on its `null`. -/
noncomputable def allocFeature (rand : ℕ → ℝ) (distStep : ℝ) (featureIndex : ℕ)
    (polyline : Polyline) (spacing : ℕ) :
    ℕ → ℕ → ℕ → AllocState → Except Unit (List TrackRecord × List PointFeature × AllocState)
  | 0, _, _, st => .ok ([], [], st)
  | quota + 1, curPath, curVertex, st =>
    match placeTrack rand distStep featureIndex curPath curVertex polyline st with
    | .error _ => .error ()
    | .ok (t, ob, st1) =>
      match getNextTrackStart polyline spacing curPath curVertex with
      | .error _ => .error ()
      | .ok none => .ok ([t], [ob], st1)
      | .ok (some pv) =>
        match allocFeature rand distStep featureIndex polyline spacing quota pv.1 pv.2 st1 with
        | .error _ => .error ()
        | .ok (ts, obs, st2) => .ok (t :: ts, ob :: obs, st2)

/-- Result of `_initialize`: the records and observations pushed, the final
counters, and whether the `console.log` early-termination branch ran. -/
structure InitResult where
  records : List TrackRecord
  obs : List PointFeature
  finalState : AllocState
  truncated : Bool

/-- `_initialize`'s outer `while` loop, one feature per iteration. -/
noncomputable def initLoop (rand : ℕ → ℝ) (distStep : ℝ) (T V : ℕ) :
    List Polyline → ℕ → AllocState → Except Unit InitResult
  | features, featureIndex, st =>
    if st.trackIndex < T then
      match features with
      | [] => .ok ⟨[], [], st, true⟩
      | poly :: rest =>
        let v := getNumberOfVertices poly
        let quota := quotaFor T v V
        let spacing := spacingFor v quota
        match allocFeature rand distStep featureIndex poly spacing quota 0 0 st with
        | .error _ => .error ()
        | .ok (ts, obs, st1) =>
          match initLoop rand distStep T V rest (featureIndex + 1) st1 with
          | .error _ => .error ()
          | .ok r => .ok ⟨ts ++ r.records, obs ++ r.obs, r.finalState, r.truncated⟩
    else .ok ⟨[], [], st, false⟩

/-- `_initialize(polylines)`: run the allocation loop from feature 0 with the
service's current counters (`trackIndex` is a local starting at 0). -/
noncomputable def initializeTracks (rand : ℕ → ℝ) (distStep : ℝ)
    (fs : List Polyline) (T : ℕ) (st : AllocState) : Except Unit InitResult :=
  initLoop rand distStep T (sumPolylineVertices fs) fs 0 st

/-- One track's update inside `_updatePositions` (one iteration of the
`i += 6` loop).  `polylines?` is `this._polylines`, possibly still
`undefined`.  `numCycles1` is the already-incremented cycle counter.
`error` models the `TypeError` of any out-of-bounds dereference.

Note the source's `path = paths[pathIndex++]`: on a path change the new
segment is read from the path at the OLD `pathIndex` while the incremented
index is persisted, and in the wrap-around branch (`pathIndex = 0`) the
segment is read from the still-current (last) path.  The slot `i + 5`
(speed) is never rewritten. -/
noncomputable def stepTrack (rand : ℕ → ℝ) (polylines? : Option (List Polyline))
    (numCycles1 : ℕ) (tr : TrackRecord) (ob : PointFeature) (idc ridx : ℕ) :
    Except Unit (TrackRecord × PointFeature × ℕ × ℕ) :=
  match polylines? with
  | none => .error ()
  | some fs =>
    match fs.get? tr.featureIndex with
    | none => .error ()
    | some poly =>
      match poly.paths.get? tr.pathIndex with
      | none => .error ()
      | some path =>
        match path.get? tr.vertexIndex, path.get? (tr.vertexIndex + 1) with
        | some v, some vn =>
          let x0 := v.1
          let y0 := v.2
          let x1 := vn.1
          let y1 := vn.2
          let nextDist := tr.accumulatedDistance + tr.speed
          let ratio := nextDist / tr.distanceToNextVertex
          let px := x0 + (x1 - x0) * ratio
          let py := y0 + (y1 - y0) * ratio
          let oid := (createId idc).1
          let idc1 := (createId idc).2
          let ar :=
            if numCycles1 = NumCyclesBetweenActiveUpdate then
              (getIsActive (rand ridx), ridx + 1)
            else (ob.attributes.active, ridx)
          let ob1 : PointFeature :=
            ⟨⟨oid, ob.attributes.trackid, getAzimuth (x1 - x0) (y1 - y0),
              ob.attributes.type, ar.1⟩, px, py⟩
          if nextDist + tr.speed ≥ tr.distanceToNextVertex then
            let vi1 := tr.vertexIndex + 1
            let move :=
              if vi1 ≥ path.length - 1 then
                if tr.pathIndex < poly.paths.length - 1 then
                  (poly.paths.get? tr.pathIndex, tr.pathIndex + 1, 0)
                else (some path, 0, 0)
              else (some path, tr.pathIndex, vi1)
            match move.1 with
            | none => .error ()
            | some npath =>
              match npath.get? move.2.2, npath.get? (move.2.2 + 1) with
              | some w, some wn =>
                let nd := segLen w.1 w.2 wn.1 wn.2
                .ok (⟨tr.featureIndex, move.2.1, move.2.2, nd, 0, tr.speed⟩, ob1, idc1, ar.2)
              | _, _ => .error ()
          else
            .ok (⟨tr.featureIndex, tr.pathIndex, tr.vertexIndex,
                  tr.distanceToNextVertex, nextDist, tr.speed⟩, ob1, idc1, ar.2)
        | _, _ => .error ()

/-- The `_updatePositions` loop over all tracks, threading the id counter and
random index; observations beyond the track records are left untouched. -/
noncomputable def tickFold (rand : ℕ → ℝ) (polylines? : Option (List Polyline))
    (numCycles1 : ℕ) :
    List TrackRecord → List PointFeature → ℕ → ℕ →
    Except Unit (List TrackRecord × List PointFeature × ℕ × ℕ)
  | [], obs, idc, ridx => .ok ([], obs, idc, ridx)
  | _ :: _, [], _, _ => .error ()
  | tr :: trs, ob :: obs, idc, ridx =>
    match stepTrack rand polylines? numCycles1 tr ob idc ridx with
    | .error _ => .error ()
    | .ok (tr1, ob1, idc1, ridx1) =>
      match tickFold rand polylines? numCycles1 trs obs idc1 ridx1 with
      | .error _ => .error ()
      | .ok (ts, os, idc2, ridx2) => .ok (tr1 :: ts, ob1 :: os, idc2, ridx2)

/-- The whole mutable state of a `MockService` instance. -/
structure MockState where
  idCounter : ℕ
  page : ℕ
  config : MockServiceConfig
  lastObservations : List PointFeature
  trackInfos : List TrackRecord
  polylines : Option (List Polyline)
  numCycles : ℕ
  randIdx : ℕ

/-- The constructor: fields as initialized in the class body (`_idCounter =
0x1`, `_page = 0`, empty arrays, `_polylines` undefined). -/
def mkService (config : MockServiceConfig) : MockState :=
  ⟨1, 0, config, [], [], none, 0, 0⟩

/-- `_updatePositions(polylines)` on the service state. -/
noncomputable def updatePositions (rand : ℕ → ℝ) (s : MockState) :
    Except Unit MockState :=
  let nc := s.numCycles + 1
  match tickFold rand s.polylines nc s.trackInfos s.lastObservations s.idCounter s.randIdx with
  | .error _ => .error ()
  | .ok (ts, os, idc, ridx) =>
    .ok { s with trackInfos := ts, lastObservations := os, idCounter := idc,
                 randIdx := ridx,
                 numCycles := if NumCyclesBetweenActiveUpdate ≤ nc then 0 else nc }

/-- `initialize(polylines)`: store the geometry and run `_initialize`,
appending to the (possibly non-empty) track arrays. -/
noncomputable def initService (rand : ℕ → ℝ) (s : MockState) (fs : List Polyline) :
    Except Unit MockState :=
  match initializeTracks rand s.config.distStep fs s.config.trackedAssets
      ⟨0, s.idCounter, s.randIdx⟩ with
  | .error _ => .error ()
  | .ok r =>
    .ok { s with polylines := some fs,
                 trackInfos := s.trackInfos ++ r.records,
                 lastObservations := s.lastObservations ++ r.obs,
                 idCounter := r.finalState.idCounter,
                 randIdx := r.finalState.randIdx }

/-- `_nextPage()`: returns the page used for this request and the stored
successor page. -/
def nextPageNum (T ps page : ℕ) : ℕ × ℕ :=
  if (page + 1) * ps ≥ T then (page, 0) else (page, page + 1)

/-- The page trajectory: the `_page` value seen by the `n`-th `next()` call
(0-based) on a freshly constructed service. -/
def pageIter (T ps : ℕ) : ℕ → ℕ
  | 0 => 0
  | n + 1 => (nextPageNum T ps (pageIter T ps n)).2

/-- Cycle length `⌈trackedAssets / pageSize⌉`. -/
def cyc (T ps : ℕ) : ℕ := (T + ps - 1) / ps

/-- The `outFeatures` array built by `next()`: `new Array(end - start)` then
`outFeatures[i] = lastObservations[i]` for `i ∈ [start, end)`.  For
`start < end` the writes extend the array to length `end`, leaving holes
(`undefined`, here `none`) at indices `< start`; with an empty copy range the
allocated array of holes is returned as is. -/
def jsPageArray {α : Type} (obs : List α) (start stop : ℕ) : List (Option α) :=
  if start < stop then
    (List.range stop).map (fun j => if start ≤ j then obs.get? j else none)
  else List.replicate (stop - start) none

/-- The structured page result (the `features` array; the `"featureResult"`
type tag and JSON encoding are out of scope). -/
structure PageResult where
  features : List (Option PointFeature)

/-- `next()`. -/
noncomputable def next (rand : ℕ → ℝ) (s : MockState) :
    Except Unit (PageResult × MockState) :=
  let ps := s.config.pageSize
  let T := s.config.trackedAssets
  let pg := (nextPageNum T ps s.page).1
  let s1 : MockState := { s with page := (nextPageNum T ps s.page).2 }
  let start := pg * ps
  let stop := min (start + ps) T
  if start = 0 then
    (updatePositions rand s1).map (fun s2 => (⟨jsPageArray s2.lastObservations start stop⟩, s2))
  else .ok (⟨jsPageArray s1.lastObservations start stop⟩, s1)

/-- `Except` success test. -/
def exOk {ε α : Type} : Except ε α → Bool
  | .ok _ => true
  | .error _ => false

/-- Number of records lying on feature `f`. -/
def countOn (rs : List TrackRecord) (f : ℕ) : ℕ :=
  rs.countP (fun r => r.featureIndex == f)

/-- Reference count of the tracks the inner loop places on one feature:
mirrors `allocFeature`, counting a placement per iteration and stopping on
`_getNextTrackStart`'s `null` (or on any of its outcomes other than a
successful advance). -/
def allocShapeCount (polyline : Polyline) (spacing : ℕ) : ℕ → ℕ → ℕ → ℕ
  | 0, _, _ => 0
  | quota + 1, curPath, curVertex =>
    match getNextTrackStart polyline spacing curPath curVertex with
    | .ok (some pv) => 1 + allocShapeCount polyline spacing quota pv.1 pv.2
    | _ => 1

/-- Reference per-feature track counts for the whole allocation: the feature
walk with a running total; a feature reached with the total already at the
target places nothing. -/
noncomputable def countLoop (T V : ℕ) : List Polyline → ℕ → List ℕ
  | [], _ => []
  | p :: rest, tIdx =>
    if tIdx < T then
      let v := getNumberOfVertices p
      let q := quotaFor T v V
      let c := allocShapeCount p (spacingFor v q) q 0 0
      c :: countLoop T V rest (tIdx + c)
    else 0 :: countLoop T V rest tIdx

/-! Concrete inputs used by the evaluations below. -/

/-- A degenerate random stream (the claims below never depend on the drawn
values). -/
noncomputable def rand0 : ℕ → ℝ := fun _ => 0

/-- One feature, one path `[(0,0), (2,0), (2,1)]` (segment lengths 2 and 1). -/
noncomputable def ex1 : List Polyline := [⟨[[(0, 0), (2, 0), (2, 1)]]⟩]

/-- One feature with two paths: `[(0,0), (1,0)]` and `[(5,5), (8,9), (9,9)]`
(the second path's first segment has length 5). -/
noncomputable def ex2 : List Polyline := [⟨[[(0, 0), (1, 0)], [(5, 5), (8, 9), (9, 9)]]⟩]

/-- One feature, one path of 4 collinear vertices, unit segments. -/
noncomputable def ex3 : List Polyline := [⟨[[(0, 0), (1, 0), (2, 0), (3, 0)]]⟩]

/-- `trackedAssets = 3`, `pageSize = 2`, `distStep = 1/4`. -/
noncomputable def cfg3 : MockServiceConfig := ⟨3, 2, 1 / 4⟩

/-- Three features with 2, 2 and 8 vertices: the third is entered with 2
tracks already placed and a quota of 3 more, overshooting `T = 3`. -/
noncomputable def ex4 : List Polyline :=
  [⟨[[(0, 0), (1, 0)]]⟩, ⟨[[(0, 1), (1, 1)]]⟩,
   ⟨[[(0, 2), (1, 2), (2, 2), (3, 2), (4, 2), (5, 2), (6, 2), (7, 2)]]⟩]

/-- Two features of 2 vertices each. -/
noncomputable def ex7 : List Polyline := [⟨[[(0, 0), (1, 0)]]⟩, ⟨[[(0, 1), (1, 1)]]⟩]

/-- The spec's worked example: one feature, one path `[(0,0), (1,0), (1,1)]`. -/
noncomputable def ex8 : List Polyline := [⟨[[(0, 0), (1, 0), (1, 1)]]⟩]

/-- A feature whose only path has a single vertex. -/
noncomputable def bad1 : Polyline := ⟨[[(0, 0)]]⟩

/-- Allocation on `ex1` with one track and `distStep = 1/2`, then one tick;
returns each track's `(vertexIndex, distanceToNextVertex, speed)`. -/
noncomputable def ex1run : Except Unit (List (ℕ × ℝ × ℝ)) := do
  let r ← initializeTracks rand0 (1 / 2) ex1 1 ⟨0, 1, 0⟩
  let t1 ← tickFold rand0 (some ex1) 1 r.records r.obs 2 2
  pure (t1.1.map (fun tr => (tr.vertexIndex, tr.distanceToNextVertex, tr.speed)))

/-- Allocation on `ex2` with one track and `distStep = 1/2`, then one tick;
returns each track's `(pathIndex, vertexIndex, distanceToNextVertex)`. -/
noncomputable def ex2run : Except Unit (List (ℕ × ℕ × ℝ)) := do
  let r ← initializeTracks rand0 (1 / 2) ex2 1 ⟨0, 1, 0⟩
  let t1 ← tickFold rand0 (some ex2) 1 r.records r.obs 2 2
  pure (t1.1.map (fun tr => (tr.pathIndex, tr.vertexIndex, tr.distanceToNextVertex)))

/-- Initialize a service on `cfg3`/`ex3` and make two page requests; returns
the second request's `features` array and the observation count. -/
noncomputable def c3run : Except Unit (List (Option PointFeature) × ℕ) := do
  let s1 ← initService rand0 (mkService cfg3) ex3
  let r1 ← next rand0 s1
  let r2 ← next rand0 r1.2
  pure (r2.1.features, r2.2.lastObservations.length)

/-- The spec's worked example run: allocation on `ex8` with one track and
`distStep = 1/2`, then two ticks; returns, per track, the post-tick-1
`(vertexIndex, accumulatedDistance, distanceToNextVertex)`, the post-tick-1
position, and the post-tick-2 position. -/
noncomputable def ex8run :
    Except Unit (List (ℕ × ℝ × ℝ) × List (ℝ × ℝ) × List (ℝ × ℝ)) := do
  let r ← initializeTracks rand0 (1 / 2) ex8 1 ⟨0, 1, 0⟩
  let t1 ← tickFold rand0 (some ex8) 1 r.records r.obs 2 2
  let t2 ← tickFold rand0 (some ex8) 2 t1.1 t1.2.1 t1.2.2.1 t1.2.2.2
  pure (t1.1.map (fun tr => (tr.vertexIndex, tr.accumulatedDistance, tr.distanceToNextVertex)),
        t1.2.1.map (fun o => (o.x, o.y)),
        t2.2.1.map (fun o => (o.x, o.y)))

/-! Arithmetic bridges from the real-valued `Math.floor` expressions to
natural-number division, and evaluation of concrete segment lengths. -/

lemma quotaFor_eq (T v V : ℕ) : quotaFor T v V = max (T * v / V) 1 := by
  unfold quotaFor
  rw [show ((T : ℝ) * v) = ((T * v : ℕ) : ℝ) by push_cast; ring]
  rw [Nat.floor_div_nat, Nat.floor_natCast]

lemma spacingFor_eq (v q : ℕ) : spacingFor v q = 4 * v / (5 * q) := by
  have h : (0.8 : ℝ) * v / q = ((4 * v : ℕ) : ℝ) / ((5 * q : ℕ) : ℝ) := by
    push_cast
    rw [show (0.8 : ℝ) = 4 / 5 by norm_num]
    ring
  unfold spacingFor
  rw [h, Nat.floor_div_nat, Nat.floor_natCast]

lemma segLen_eval (x0 y0 x1 y1 d : ℝ)
    (h : (x1 - x0) * (x1 - x0) + (y1 - y0) * (y1 - y0) = d * d) (hd : 0 ≤ d) :
    segLen x0 y0 x1 y1 = d := by
  unfold segLen
  rw [h, show d * d = d ^ 2 by ring, Real.sqrt_sq hd]

/-! The id counter. -/

lemma idAfter_closed (n : ℕ) : idAfter n = (1 + n) % 4294967294 := by
  induction n with
  | zero => rfl
  | succ n ih =>
    have h : idAfter (n + 1) = (idAfter n + 1) % 4294967294 := rfl
    rw [h, ih, show 1 + (n + 1) = (1 + n) + 1 by ring, Nat.add_mod (1 + n) 1]

/-! The page counter. -/

lemma cyc_le_iff {T ps : ℕ} (hps : 0 < ps) (m : ℕ) : cyc T ps ≤ m ↔ T ≤ m * ps := by
  unfold cyc
  rw [Nat.div_le_iff_le_mul_add_pred hps, Nat.mul_comm]
  omega

lemma cyc_pos {T ps : ℕ} (hT : 0 < T) (hps : 0 < ps) : 0 < cyc T ps := by
  rcases Nat.eq_zero_or_pos (cyc T ps) with h | h
  · have := (cyc_le_iff hps 0).mp (le_of_eq h)
    omega
  · exact h

lemma pageIter_mod (T ps : ℕ) (hT : 0 < T) (hps : 0 < ps) (n : ℕ) :
    pageIter T ps n = n % cyc T ps := by
  induction n with
  | zero => simp [pageIter]
  | succ n ih =>
    have hc := cyc_pos hT hps
    have hlt : n % cyc T ps < cyc T ps := Nat.mod_lt _ hc
    rw [pageIter, ih, nextPageNum]
    by_cases h : T ≤ (n % cyc T ps + 1) * ps
    · have h1 : cyc T ps ≤ n % cyc T ps + 1 := (cyc_le_iff hps _).mpr h
      have h2 : n % cyc T ps = cyc T ps - 1 := by omega
      have hdvd : cyc T ps ∣ (n + 1) := by
        refine ⟨n / cyc T ps + 1, ?_⟩
        have h3 := Nat.div_add_mod n (cyc T ps)
        rw [Nat.mul_add, Nat.mul_one]
        omega
      have h4 : (n + 1) % cyc T ps = 0 := Nat.mod_eq_zero_of_dvd hdvd
      simp only [ge_iff_le, h, if_true]
      omega
    · have h1 : ¬ cyc T ps ≤ n % cyc T ps + 1 := fun hh => h ((cyc_le_iff hps _).mp hh)
      have h2 : 1 % cyc T ps = 1 := Nat.mod_eq_of_lt (by omega)
      have h3 : (n + 1) % cyc T ps = n % cyc T ps + 1 := by
        rw [Nat.add_mod n 1, h2, Nat.mod_eq_of_lt (by omega)]
      simp only [ge_iff_le, h, if_false]
      omega

end MockService

namespace MockService

lemma placeTrack_out (rand : ℕ → ℝ) (d : ℝ) (fi cp cv : ℕ) (poly : Polyline)
    (st : AllocState) (t : TrackRecord) (ob : PointFeature) (st1 : AllocState)
    (h : placeTrack rand d fi cp cv poly st = .ok (t, ob, st1)) :
    t.featureIndex = fi ∧ t.speed = t.distanceToNextVertex * d ∧
    st1.trackIndex = st.trackIndex + 1 := by
  unfold placeTrack at h
  rcases h1 : poly.paths.get? cp with _ | path <;> simp only [h1] at h
  · exact absurd h (by simp)
  · rcases h2 : path.get? cv with _ | v <;> rcases h3 : path.get? (cv + 1) with _ | vn <;>
        simp only [h2, h3] at h
    · exact absurd h (by simp)
    · exact absurd h (by simp)
    · exact absurd h (by simp)
    · simp only [Except.ok.injEq, Prod.mk.injEq] at h
      obtain ⟨ht, hob, hst⟩ := h
      subst ht
      subst hst
      simp

lemma allocFeature_spec (rand : ℕ → ℝ) (d : ℝ) (fi : ℕ) (poly : Polyline) (spacing : ℕ) :
    ∀ (q cp cv : ℕ) (st : AllocState)
      (out : List TrackRecord × List PointFeature × AllocState),
      allocFeature rand d fi poly spacing q cp cv st = .ok out →
      out.1.length = out.2.1.length ∧
      out.2.2.trackIndex = st.trackIndex + out.1.length ∧
      out.1.length = allocShapeCount poly spacing q cp cv ∧
      ∀ r ∈ out.1, r.featureIndex = fi := by
  intro q
  induction q with
  | zero =>
    intro cp cv st out h
    unfold allocFeature at h
    simp only [Except.ok.injEq] at h
    subst h
    simp [allocShapeCount]
  | succ q ih =>
    intro cp cv st out h
    unfold allocFeature at h
    rcases hp : placeTrack rand d fi cp cv poly st with e | ⟨t, ob, st1⟩ <;>
        simp only [hp] at h
    · exact absurd h (by simp)
    · obtain ⟨htfi, -, hst1⟩ := placeTrack_out rand d fi cp cv poly st t ob st1 hp
      rcases hn : getNextTrackStart poly spacing cp cv with e | o <;> simp only [hn] at h
      · exact absurd h (by simp)
      · rcases o with _ | pv
        · simp only [Except.ok.injEq] at h
          subst h
          simp [allocShapeCount, hn, htfi, hst1]
        · rcases hr : allocFeature rand d fi poly spacing q pv.1 pv.2 st1 with e | out1 <;>
              simp only [hr] at h
          · exact absurd h (by simp)
          · rcases out1 with ⟨ts, obs, st2⟩
            simp only [Except.ok.injEq] at h
            subst h
            obtain ⟨hl, htr, hc, hfi⟩ := ih pv.1 pv.2 st1 (ts, obs, st2) hr
            refine ⟨?_, ?_, ?_, ?_⟩
            · simpa using hl
            · simp only [List.length_cons]
              simp at htr
              omega
            · simp only [allocShapeCount, hn, List.length_cons]
              simp at hc
              omega
            · intro r hr2
              rcases List.mem_cons.mp hr2 with hr3 | hr3
              · simp [hr3, htfi]
              · exact hfi r hr3

lemma allocShapeCount_le (poly : Polyline) (spacing : ℕ) :
    ∀ (q cp cv : ℕ), allocShapeCount poly spacing q cp cv ≤ q := by
  intro q
  induction q with
  | zero => intro cp cv; simp [allocShapeCount]
  | succ q ih =>
    intro cp cv
    unfold allocShapeCount
    rcases h : getNextTrackStart poly spacing cp cv with e | o
    · simp only [h]
      omega
    · rcases o with _ | pv
      · simp only [h]
        omega
      · simp only [h]
        have := ih pv.1 pv.2
        omega

lemma countLoop_ge (T V : ℕ) :
    ∀ (features : List Polyline) (tIdx : ℕ), ¬ tIdx < T →
      ∀ j, (countLoop T V features tIdx).getD j 0 = 0 := by
  intro features
  induction features with
  | nil => intro tIdx h j; simp [countLoop]
  | cons p rest ih =>
    intro tIdx h j
    unfold countLoop
    simp only [h, if_false]
    cases j with
    | zero => simp
    | succ j => simpa using ih tIdx h j

lemma countOn_append (a b : List TrackRecord) (f : ℕ) :
    countOn (a ++ b) f = countOn a f + countOn b f := by
  simp [countOn]

lemma countOn_all (a : List TrackRecord) (f : ℕ) (h : ∀ r ∈ a, r.featureIndex = f) :
    countOn a f = a.length := by
  unfold countOn
  rw [List.countP_eq_length]
  intro r hr
  simp [h r hr]

lemma countOn_none (a : List TrackRecord) (f : ℕ) (h : ∀ r ∈ a, r.featureIndex ≠ f) :
    countOn a f = 0 := by
  unfold countOn
  rw [List.countP_eq_zero]
  intro r hr
  simpa using h r hr

lemma initLoop_spec (rand : ℕ → ℝ) (d : ℝ) (T V : ℕ) :
    ∀ (features : List Polyline) (fi : ℕ) (st : AllocState) (out : InitResult),
      initLoop rand d T V features fi st = .ok out →
      out.records.length = out.obs.length ∧
      out.finalState.trackIndex = st.trackIndex + out.records.length ∧
      (out.truncated = false → T ≤ out.finalState.trackIndex) ∧
      (∀ r ∈ out.records, fi ≤ r.featureIndex) ∧
      (∀ j : ℕ, countOn out.records (fi + j) = (countLoop T V features st.trackIndex).getD j 0) := by
  intro features
  induction features with
  | nil =>
    intro fi st out h
    unfold initLoop at h
    by_cases hT : st.trackIndex < T <;> simp only [hT, if_true, if_false] at h <;>
        simp only [Except.ok.injEq] at h <;> subst h
    · simp [countOn, countLoop]
    · simp [countOn, countLoop]
      omega
  | cons p rest ih =>
    intro fi st out h
    unfold initLoop at h
    by_cases hT : st.trackIndex < T <;> simp only [hT, if_true, if_false] at h
    · rcases ha : allocFeature rand d fi p
          (spacingFor (getNumberOfVertices p) (quotaFor T (getNumberOfVertices p) V))
          (quotaFor T (getNumberOfVertices p) V) 0 0 st with e | ao <;> simp only [ha] at h
      · exact absurd h (by simp)
      · rcases ao with ⟨ts, obs, st1⟩
        rcases hr : initLoop rand d T V rest (fi + 1) st1 with e | out1 <;> simp only [hr] at h
        · exact absurd h (by simp)
        · simp only [Except.ok.injEq] at h
          subst h
          obtain ⟨hl, hst1, hc, hfi⟩ := allocFeature_spec rand d fi p _ _ _ _ _ _ ha
          obtain ⟨ihl, ihtr, ihtrunc, ihfi, ihcount⟩ := ih (fi + 1) st1 out1 hr
          simp only at hl hst1 hc hfi
          refine ⟨?_, ?_, ?_, ?_, ?_⟩
          · simp [hl, ihl]
          · simp only [List.length_append]
            omega
          · intro htr
            exact le_trans (ihtrunc htr) (le_of_eq rfl)
          · intro r hr2
            rcases List.mem_append.mp hr2 with hr3 | hr3
            · exact le_of_eq (hfi r hr3).symm
            · exact le_trans (Nat.le_succ fi) (ihfi r hr3)
          · intro j
            rw [countOn_append]
            unfold countLoop
            simp only [hT, if_true]
            cases j with
            | zero =>
              simp only [Nat.add_zero]
              rw [countOn_all ts fi hfi,
                  countOn_none out1.records fi
                    (fun r hr3 => by have := ihfi r hr3; omega)]
              simp [hc]
            | succ j =>
              rw [countOn_none ts (fi + (j + 1))
                    (fun r hr3 => by have := hfi r hr3; omega)]
              have h2 : fi + (j + 1) = (fi + 1) + j := by omega
              rw [h2]
              have h3 := ihcount j
              simp only [List.getD_cons_succ]
              rw [h3, hst1, hc]
              simp
    · simp only [Except.ok.injEq] at h
      subst h
      refine ⟨by simp, by simp, by simp; omega, by simp, ?_⟩
      intro j
      unfold countLoop
      simp only [hT, if_false]
      cases j with
      | zero => simp [countOn]
      | succ j =>
        simp only [List.getD_cons_succ]
        rw [countLoop_ge T V rest st.trackIndex hT j]
        simp [countOn]

end MockService

namespace MockService

lemma exOk_exists {α : Type} (x : Except Unit α) (h : exOk x = true) : ∃ y, x = .ok y := by
  rcases x with e | y
  · simp [exOk] at h
  · exact ⟨y, rfl⟩

lemma allocFeature_ok (rand : ℕ → ℝ) (d : ℝ) (fi : ℕ) (poly : Polyline) (spacing : ℕ) :
    ∀ (q cp cv : ℕ) (st : AllocState) (path : List Vertex),
      poly.paths.get? cp = some path → cv + 1 < path.length →
      exOk (allocFeature rand d fi poly spacing q cp cv st) = true := by
  intro q
  induction q with
  | zero =>
    intro cp cv st path h1 h2
    simp [allocFeature, exOk]
  | succ q ih =>
    intro cp cv st path h1 h2
    have hv : path.get? cv = some (path.get ⟨cv, by omega⟩) := List.get?_eq_get (by omega)
    have hv2 : path.get? (cv + 1) = some (path.get ⟨cv + 1, h2⟩) := List.get?_eq_get h2
    unfold allocFeature placeTrack getNextTrackStart
    simp only [h1, hv, hv2]
    by_cases hsp : spacing + cv < path.length - 1
    · simp only [hsp, if_true]
      obtain ⟨out, hout⟩ := exOk_exists _
        (ih cp (spacing + cv)
          ⟨st.trackIndex + 1, (createId st.idCounter).2, st.randIdx + 2⟩ path h1 (by omega))
      rcases out with ⟨ts, obs, st2⟩
      simp [hout, exOk]
    · simp only [hsp, if_false]
      rcases h3 : poly.paths.get? (cp + 1) with _ | p2
      · simp [exOk]
      · by_cases h4 : p2.length < 2
        · simp [h4, exOk]
        · simp only [h4, if_false]
          obtain ⟨out, hout⟩ := exOk_exists _
            (ih (cp + 1) 0
              ⟨st.trackIndex + 1, (createId st.idCounter).2, st.randIdx + 2⟩ p2 h3 (by omega))
          rcases out with ⟨ts, obs, st2⟩
          simp [hout, exOk]

lemma initLoop_ok (rand : ℕ → ℝ) (d : ℝ) (T V : ℕ) :
    ∀ (features : List Polyline) (fi : ℕ) (st : AllocState),
      (∀ p ∈ features, 1 < p.paths.headI.length) →
      exOk (initLoop rand d T V features fi st) = true := by
  intro features
  induction features with
  | nil =>
    intro fi st hgood
    unfold initLoop
    by_cases hT : st.trackIndex < T <;> simp [hT, exOk]
  | cons p rest ih =>
    intro fi st hgood
    unfold initLoop
    by_cases hT : st.trackIndex < T <;> simp only [hT, if_true, if_false]
    · have hp : 1 < p.paths.headI.length := hgood p (by simp)
      rcases hpaths : p.paths with _ | ⟨p0, prest⟩
      · rw [hpaths] at hp
        exact absurd hp (by decide)
      · have h0 : p.paths.get? 0 = some p0 := by rw [hpaths]; rfl
        have hlen : 0 + 1 < p0.length := by
          rw [hpaths] at hp
          simpa [List.headI] using hp
        obtain ⟨ao, hao⟩ := exOk_exists _
          (allocFeature_ok rand d fi p
            (spacingFor (getNumberOfVertices p) (quotaFor T (getNumberOfVertices p) V))
            (quotaFor T (getNumberOfVertices p) V) 0 0 st p0 h0 hlen)
        rcases ao with ⟨ts, obs, st1⟩
        obtain ⟨out1, hout1⟩ := exOk_exists _
          (ih (fi + 1) st1 (fun q hq => hgood q (by simp [hq])))
        simp [hao, hout1, exOk]
    · simp [exOk]

end MockService

namespace MockService

lemma nextPageNum_fst (T ps page : ℕ) : (nextPageNum T ps page).1 = page := by
  unfold nextPageNum
  split <;> rfl

lemma map_eq_ok {α β : Type} {f : α → β} {x : Except Unit α} {y : β}
    (h : x.map f = .ok y) : ∃ a, x = .ok a ∧ f a = y := by
  rcases x with e | a
  · exact absurd h (by simp [Except.map])
  · exact ⟨a, rfl, by simpa [Except.map] using h⟩

lemma updatePositions_numCycles (rand : ℕ → ℝ) (s s' : MockState)
    (h : updatePositions rand s = .ok s') :
    s'.numCycles =
      if NumCyclesBetweenActiveUpdate ≤ s.numCycles + 1 then 0 else s.numCycles + 1 := by
  unfold updatePositions at h
  rcases ht : tickFold rand s.polylines (s.numCycles + 1) s.trackInfos s.lastObservations
      s.idCounter s.randIdx with e | q <;> simp only [ht] at h
  · exact absurd h (by simp)
  · rcases q with ⟨ts, os, idc, ridx⟩
    simp only [Except.ok.injEq] at h
    subst h
    rfl

/-- C6: on a freshly constructed service the page counter follows
`pageIter T ps n = n % ⌈T/ps⌉`, so within any aligned cycle of
`cyc T ps = ⌈trackedAssets / pageSize⌉` consecutive requests the request
offset `start = page × pageSize` is zero exactly on the first request of the
cycle; `next` runs the Track Simulator (observable as the tick counter
update) precisely on a `start = 0` request, and otherwise returns with only
the page counter advanced and all other state untouched. -/
theorem specC6 :
    (∀ T ps : ℕ, 0 < T → 0 < ps → ∀ k j : ℕ, j < cyc T ps →
      (pageIter T ps (k * cyc T ps + j) * ps = 0 ↔ j = 0))
    ∧ (∀ (rand : ℕ → ℝ) (s : MockState), s.page * s.config.pageSize ≠ 0 →
        next rand s = .ok
          (⟨jsPageArray s.lastObservations (s.page * s.config.pageSize)
              (min (s.page * s.config.pageSize + s.config.pageSize) s.config.trackedAssets)⟩,
           { s with page := (nextPageNum s.config.trackedAssets s.config.pageSize s.page).2 }))
    ∧ (∀ (rand : ℕ → ℝ) (s : MockState) (p : PageResult) (s2 : MockState),
        s.page = 0 → next rand s = .ok (p, s2) →
        s2.numCycles = if NumCyclesBetweenActiveUpdate ≤ s.numCycles + 1 then 0
                       else s.numCycles + 1) := by
  refine ⟨?_, ?_, ?_⟩
  · intro T ps hT hps k j hj
    rw [pageIter_mod T ps hT hps, Nat.mul_comm k (cyc T ps), Nat.mul_add_mod,
      Nat.mod_eq_of_lt hj]
    constructor
    · intro h
      rcases Nat.mul_eq_zero.mp h with h1 | h1
      · exact h1
      · omega
    · intro h
      subst h
      simp
  · intro rand s hstart
    unfold next
    simp only [nextPageNum_fst]
    rw [if_neg hstart]
  · intro rand s p s2 hpage h
    unfold next at h
    simp only [nextPageNum_fst, hpage, Nat.zero_mul, if_pos rfl, if_true] at h
    obtain ⟨s3, hu, hf⟩ := map_eq_ok h
    simp only [Prod.mk.injEq] at hf
    obtain ⟨-, hs3⟩ := hf
    subst hs3
    simpa using updatePositions_numCycles rand _ _ hu

/-- C5 failing run: the identifier sequence starts at 1, but the value
emitted by the call following 4294967293 prior calls is `idAfter 4294967293 =
(1 + 4294967293) % 0xfffffffe = 0` — the generator DOES emit 0, contradicting
the claim (and the source's own `force nonzero u32` comment). -/
theorem specC5bug : idAfter 0 = 1 ∧ idAfter 4294967293 = 0 := by
  refine ⟨rfl, ?_⟩
  rw [idAfter_closed]

end MockService

namespace MockService

/-- C1 amended: at allocation time a track's speed is set to
`segmentLength × distStep` of its initial segment (`placeTrack`), and a tick
NEVER rewrites the speed slot: the record produced by `stepTrack` always
carries the input record's speed, even across segment transitions where
`segmentLength` is recomputed — speed is a per-track constant after
initialization, not recomputed per segment. -/
theorem specC1 :
    (∀ (rand : ℕ → ℝ) (d : ℝ) (fi cp cv : ℕ) (poly : Polyline) (st : AllocState),
      (placeTrack rand d fi cp cv poly st).toOption.map (fun o => o.1.speed)
        = (placeTrack rand d fi cp cv poly st).toOption.map
            (fun o => o.1.distanceToNextVertex * d))
    ∧ (∀ (rand : ℕ → ℝ) (ps? : Option (List Polyline)) (nc : ℕ) (tr : TrackRecord)
        (ob : PointFeature) (idc ridx : ℕ),
      (stepTrack rand ps? nc tr ob idc ridx).toOption.map (fun o => o.1.speed)
        = (stepTrack rand ps? nc tr ob idc ridx).toOption.map (fun _ => tr.speed)) := by
  constructor
  · intro rand d fi cp cv poly st
    unfold placeTrack
    rcases h1 : poly.paths.get? cp with _ | path <;> simp only [h1]
    · rfl
    · rcases h2 : path.get? cv with _ | v <;> rcases h3 : path.get? (cv + 1) with _ | vn <;>
          simp only [h2, h3] <;> rfl
  · intro rand ps? nc tr ob idc ridx
    unfold stepTrack
    rcases ps? with _ | fs
    · rfl
    · rcases h1 : fs.get? tr.featureIndex with _ | poly <;> simp only [h1]
      · rfl
      · rcases h2 : poly.paths.get? tr.pathIndex with _ | path <;> simp only [h2]
        · rfl
        · rcases h3 : path.get? tr.vertexIndex with _ | v <;>
              rcases h4 : path.get? (tr.vertexIndex + 1) with _ | vn <;> simp only [h3, h4]
          · rfl
          · rfl
          · rfl
          · by_cases h5 : tr.accumulatedDistance + tr.speed + tr.speed ≥ tr.distanceToNextVertex
            · rw [if_pos h5]
              by_cases h6 : tr.vertexIndex + 1 ≥ path.length - 1
              · rw [if_pos h6]
                by_cases h7 : tr.pathIndex < poly.paths.length - 1
                · rw [if_pos h7]
                  simp only [h2]
                  rcases h8 : path.get? 0 with _ | w <;> rcases h9 : path.get? 1 with _ | wn <;>
                      simp only [h8, h9] <;> rfl
                · rw [if_neg h7]
                  rcases h8 : path.get? 0 with _ | w <;> rcases h9 : path.get? 1 with _ | wn <;>
                      simp only [h8, h9] <;> rfl
              · rw [if_neg h6]
                rcases h8 : path.get? (tr.vertexIndex + 1) with _ | w <;>
                    rcases h9 : path.get? (tr.vertexIndex + 1 + 1) with _ | wn <;>
                    simp only [h8, h9] <;> rfl
            · rw [if_neg h5]
              rfl

end MockService

namespace MockService

/-- C10: the `< 2 vertices` path check guards only advances to a subsequent
path, never the first path used for a feature: (1) for any feature whose
first path has fewer than 2 vertices (or no paths at all) and any positive
quota, the feature's first track placement dereferences an out-of-bounds
vertex (`error`); (2) this out-of-bounds branch is reachable from the public
initialize interface (`bad1`, one single-vertex path, `T = 1`); (3) if every
feature's first path has at least 2 vertices, allocation completes without
any out-of-bounds access. -/
theorem specC10 :
    (∀ (rand : ℕ → ℝ) (d : ℝ) (fi : ℕ) (poly : Polyline) (spacing q : ℕ) (st : AllocState),
      ¬ 1 < poly.paths.headI.length → 0 < q →
      allocFeature rand d fi poly spacing q 0 0 st = .error ())
    ∧ (∀ (rand : ℕ → ℝ) (d : ℝ),
        initializeTracks rand d [bad1] 1 ⟨0, 1, 0⟩ = .error ())
    ∧ (∀ (rand : ℕ → ℝ) (d : ℝ) (fs : List Polyline) (T : ℕ) (st : AllocState),
        (∀ p ∈ fs, 1 < p.paths.headI.length) →
        exOk (initializeTracks rand d fs T st) = true) := by
  refine ⟨?_, ?_, ?_⟩
  · intro rand d fi poly spacing q st hbad hq
    obtain ⟨q', rfl⟩ : ∃ q', q = q' + 1 := ⟨q - 1, by omega⟩
    unfold allocFeature placeTrack
    rcases hpaths : poly.paths with _ | ⟨p0, rest⟩
    · simp [List.get?]
    · have hlen : p0.length ≤ 1 := by
        rw [hpaths] at hbad
        simpa [List.headI] using hbad
      have h1 : p0.get? (0 + 1) = none := List.get?_eq_none.mpr (by omega)
      simp only [List.get?_cons_zero, h1]
      rcases h2 : p0.get? 0 with _ | w <;> simp only [h2]
  · intro rand d
    norm_num [initializeTracks, initLoop, allocFeature, placeTrack, quotaFor_eq,
      sumPolylineVertices, getNumberOfVertices, bad1, List.get?]
  · intro rand d fs T st hgood
    simpa [initializeTracks] using
      initLoop_ok rand d T (sumPolylineVertices fs) fs 0 st hgood

end MockService

namespace MockService

/-- C4 amended: initialization always produces equally many TrackRecords and
Observations, and it produces fewer than the target `T` only when the feature
sequence was exhausted (the `console.log` early-termination branch ran); the
count may however EXCEED `T`, because the target is only checked between
features while an entered feature always places its full per-feature quota
(see the counterexample). -/
theorem specC4 (rand : ℕ → ℝ) (d : ℝ) (fs : List Polyline) (T idc ridx : ℕ)
    (out : InitResult) (h : initializeTracks rand d fs T ⟨0, idc, ridx⟩ = .ok out) :
    out.records.length = out.obs.length ∧
    (out.records.length < T → out.truncated = true) := by
  unfold initializeTracks at h
  obtain ⟨h1, h2, h3, -, -⟩ :=
    initLoop_spec rand d T (sumPolylineVertices fs) fs 0 ⟨0, idc, ridx⟩ out h
  refine ⟨h1, ?_⟩
  intro hlt
  rcases Bool.eq_false_or_eq_true out.truncated with h4 | h4
  · exact h4
  · exfalso
    have h5 := h3 h4
    simp only [h2] at h5
    simp at h5
    omega

/-- C7 amended: the number of tracks the allocator places on feature `f`
equals the `f`-th entry of the reference sequence `countLoop`: features are
walked in order with a running total starting at 0; a feature reached with
the total already at or above `T` places 0 tracks; an entered feature places
the number of placements its spacing walk yields (`allocShapeCount`, which
stops early when the feature's paths exhaust) — and that number never exceeds
the quota `max(1, floor(T × featureVertices / totalVertices))` passed to it. -/
theorem specC7 (rand : ℕ → ℝ) (d : ℝ) (fs : List Polyline) (T idc ridx : ℕ)
    (out : InitResult) (h : initializeTracks rand d fs T ⟨0, idc, ridx⟩ = .ok out) :
    (∀ f : ℕ, countOn out.records f = (countLoop T (sumPolylineVertices fs) fs 0).getD f 0) ∧
    (∀ (poly : Polyline) (spacing q cp cv : ℕ), allocShapeCount poly spacing q cp cv ≤ q) := by
  constructor
  · intro f
    unfold initializeTracks at h
    have hs :=
      (initLoop_spec rand d T (sumPolylineVertices fs) fs 0 ⟨0, idc, ridx⟩ out h).2.2.2.2 f
    simpa using hs
  · intro poly spacing q cp cv
    exact allocShapeCount_le poly spacing q cp cv

end MockService

namespace MockService

/-- C1 counterexample: on `ex1` (segment lengths 2 then 1, `distStep = 1/2`)
the first tick resolves a segment transition, after which the stored record is
`(vertexIndex, segmentLength, speed) = (1, 1, 1)`: the persisted speed `1` is
the initial segment's `2 × 1/2` and differs from the current segment's
`segmentLength × distStep = 1 × 1/2`, so speed is NOT recomputed on segment
change, contrary to the claim. -/
theorem specC1cex :
    ex1run.toOption = some [(1, 1, 1)] ∧ 1 * (1 / 2) < (1 : ℝ) := by
  have h1 : segLen 0 0 2 0 = 2 := segLen_eval 0 0 2 0 2 (by norm_num) (by norm_num)
  have h2 : segLen 2 0 2 1 = 1 := segLen_eval 2 0 2 1 1 (by norm_num) (by norm_num)
  refine ⟨?_, by norm_num⟩
  norm_num [ex1run, ex1, initializeTracks, initLoop, allocFeature, placeTrack,
    getNextTrackStart, quotaFor_eq, spacingFor_eq, sumPolylineVertices, getNumberOfVertices,
    List.get?, tickFold, stepTrack, h1, h2, Except.toOption, Except.bind, bind, pure,
    Except.pure, NumCyclesBetweenActiveUpdate]

/-- C2 failing run: on `ex2` (two paths; the second path's first segment has
length 5) the tick that moves the track off the end of path 0 persists
`pathIndex = 1, vertexIndex = 0` but stores `segmentLength = 1`, the length of
path 0's segment, not the `5` of the first segment of the path at the
persisted `pathIndex` — the `paths[pathIndex++]` slip reads the old path. -/
theorem specC2bug :
    ex2run.toOption = some [(1, 0, 1)] ∧ segLen 5 5 8 9 = 5 ∧ (1 : ℝ) < 5 := by
  have h1 : segLen 0 0 1 0 = 1 := segLen_eval 0 0 1 0 1 (by norm_num) (by norm_num)
  have h5 : segLen 5 5 8 9 = 5 := segLen_eval 5 5 8 9 5 (by norm_num) (by norm_num)
  refine ⟨?_, h5, by norm_num⟩
  norm_num [ex2run, ex2, initializeTracks, initLoop, allocFeature, placeTrack,
    getNextTrackStart, quotaFor_eq, spacingFor_eq, sumPolylineVertices, getNumberOfVertices,
    List.get?, tickFold, stepTrack, h1, Except.toOption, Except.bind, bind, pure,
    Except.pure, NumCyclesBetweenActiveUpdate]

/-- C4 counterexample: on `ex4` with `trackedAssets = 3` the allocator creates
4 TrackRecords and 4 Observations without any geometry exhaustion — the third
feature is entered with 2 tracks placed and contributes its whole quota of 2,
so the track count exceeds the target `T = 3`. -/
theorem specC4cex :
    (initializeTracks rand0 (1 / 2) ex4 3 ⟨0, 1, 0⟩).toOption.map
        (fun r => (r.records.length, r.obs.length, r.truncated)) = some (4, 4, false)
    ∧ 3 < (4 : ℕ) := by
  refine ⟨?_, by norm_num⟩
  norm_num [ex4, initializeTracks, initLoop, allocFeature, placeTrack,
    getNextTrackStart, quotaFor_eq, spacingFor_eq, sumPolylineVertices, getNumberOfVertices,
    List.get?, Except.toOption]

/-- C7 counterexample: on `ex7` (two 2-vertex features, `T = 1`) feature 1
receives 0 tracks although its quota `max(1, floor(T·v/V)) = quotaFor 1 2 4`
is 1, and the overall count (1) is not short of `T` — so the per-feature
formula fails without the geometry-exhaustion exception applying: the feature
is simply never entered because the running count already reached `T`. -/
theorem specC7cex :
    (initializeTracks rand0 (1 / 2) ex7 1 ⟨0, 1, 0⟩).toOption.map
        (fun r => (countOn r.records 1, r.records.length)) = some (0, 1)
    ∧ quotaFor 1 2 4 = 1 ∧ (0 : ℕ) < 1 := by
  refine ⟨?_, by norm_num [quotaFor_eq], by norm_num⟩
  norm_num [ex7, initializeTracks, initLoop, allocFeature, placeTrack,
    getNextTrackStart, quotaFor_eq, spacingFor_eq, sumPolylineVertices, getNumberOfVertices,
    List.get?, Except.toOption, countOn, List.countP_cons, List.countP_nil]

/-- C8 amended: in the spec's worked example (one path `[(0,0),(1,0),(1,1)]`,
one track, `distStep = 1/2`) the first tick moves the track to `(1/2, 0)` AND
already resolves the transition to segment `[(1,0),(1,1)]` (the record after
tick 1 is `vertexIndex = 1`, `accumulatedDistance = 0`, `segmentLength = 1`,
because `nextAccumulated + speed = 1 ≥ 1` fires on tick 1); the second tick
then moves the track to `(1, 1/2)`. -/
theorem specC8 :
    ex8run.toOption = some ([(1, 0, 1)], [(1 / 2, 0)], [(1, 1 / 2)]) := by
  have h1 : segLen 0 0 1 0 = 1 := segLen_eval 0 0 1 0 1 (by norm_num) (by norm_num)
  have h2 : segLen 1 0 1 1 = 1 := segLen_eval 1 0 1 1 1 (by norm_num) (by norm_num)
  norm_num [ex8run, ex8, initializeTracks, initLoop, allocFeature, placeTrack,
    getNextTrackStart, quotaFor_eq, spacingFor_eq, sumPolylineVertices, getNumberOfVertices,
    List.get?, tickFold, stepTrack, h1, h2, Except.toOption, Except.bind, bind, pure,
    Except.pure, NumCyclesBetweenActiveUpdate]

/-- C8 counterexample: in the spec's worked example the FIRST tick already
triggers the transition (after tick 1 the record's `vertexIndex` is 1, not 0),
and the second tick moves the track to `(1, 1/2)`, not `(1, 0)` — its
y-coordinate `1/2` is strictly above the claimed `0`. -/
theorem specC8cex :
    ex8run.toOption.map (fun x => (x.1.map Prod.fst, x.2.2)) = some ([1], [(1, 1 / 2)])
    ∧ (0 : ℝ) < 1 / 2 := by
  have h1 : segLen 0 0 1 0 = 1 := segLen_eval 0 0 1 0 1 (by norm_num) (by norm_num)
  have h2 : segLen 1 0 1 1 = 1 := segLen_eval 1 0 1 1 1 (by norm_num) (by norm_num)
  refine ⟨?_, by norm_num⟩
  norm_num [ex8run, ex8, initializeTracks, initLoop, allocFeature, placeTrack,
    getNextTrackStart, quotaFor_eq, spacingFor_eq, sumPolylineVertices, getNumberOfVertices,
    List.get?, tickFold, stepTrack, h1, h2, Except.toOption, Except.bind, bind, pure,
    Except.pure, NumCyclesBetweenActiveUpdate]

end MockService

namespace MockService

/-- C3 failing run: with `trackedAssets = 3`, `pageSize = 2` on `ex3`, the
second page request (start = 2, end = 3) returns a `features` array of length
3 whose first two entries are `null` holes, instead of the one-element slice
`Observations[2:3]` (`end − start = 1`): the copy loop writes `outFeatures[i]`
instead of `outFeatures[i - start]`. -/
theorem specC3bug :
    c3run.toOption.map (fun x => (x.1.length, x.1.take 2, x.2))
      = some (3, ([none, none] : List (Option PointFeature)), 3)
    ∧ 3 - 2 < (3 : ℕ) := by
  have h1 : segLen 0 0 1 0 = 1 := segLen_eval 0 0 1 0 1 (by norm_num) (by norm_num)
  have h2 : segLen 1 0 2 0 = 1 := segLen_eval 1 0 2 0 1 (by norm_num) (by norm_num)
  have h3 : segLen 2 0 3 0 = 1 := segLen_eval 2 0 3 0 1 (by norm_num) (by norm_num)
  refine ⟨?_, by norm_num⟩
  norm_num [c3run, cfg3, ex3, mkService, initService, next, nextPageNum, updatePositions,
    jsPageArray, initializeTracks, initLoop, allocFeature, placeTrack, getNextTrackStart,
    quotaFor_eq, spacingFor_eq, sumPolylineVertices, getNumberOfVertices, List.get?,
    tickFold, stepTrack, h1, h2, h3, Except.toOption, Except.bind, bind, pure, Except.pure,
    Except.map, NumCyclesBetweenActiveUpdate, List.range_succ]

/-- C9 amended: calling `next` before `initialize` is NOT rejected: on a
fresh service (no geometry, no tracks) the call succeeds — the tick loop is a
no-op over the empty track array, the stored geometry is never dereferenced —
and it silently returns a page of `min(pageSize, trackedAssets)` null
(`undefined`) entries. -/
theorem specC9 (rand : ℕ → ℝ) (c : MockServiceConfig) (h1 : 0 < c.pageSize)
    (h2 : 0 < c.trackedAssets) :
    (next rand (mkService c)).toOption.map Prod.fst
      = some ⟨List.replicate (min c.pageSize c.trackedAssets) none⟩ := by
  have hmin : 0 < min c.pageSize c.trackedAssets := lt_min h1 h2
  norm_num [next, mkService, nextPageNum_fst, updatePositions, tickFold, jsPageArray,
    hmin, Except.map, Except.toOption, List.get?, List.map_const']

/-- C9 counterexample: with the default configuration, a page request on a
service that was never initialized does not fail fast — it returns a result
(`exOk` is `true`), refuting the claim that such calls are rejected. -/
theorem specC9cex : exOk (next rand0 (mkService defaults)) = true := by rfl

end MockService

namespace MockService

/-- C4 witness: the amended theorem applied to a concrete successful
allocation (`ex7`, `T = 1`). -/
theorem specC4w :
    (initializeTracks rand0 (1 / 2) ex7 1 ⟨0, 1, 0⟩).toOption.map
        (fun r => decide (r.records.length = r.obs.length)) = some true := by
  rcases h : initializeTracks rand0 (1 / 2) ex7 1 ⟨0, 1, 0⟩ with e | out
  · exfalso
    have hok : exOk (initializeTracks rand0 (1 / 2) ex7 1 ⟨0, 1, 0⟩) = true := by
      norm_num [ex7, initializeTracks, initLoop, allocFeature, placeTrack, getNextTrackStart,
        quotaFor_eq, spacingFor_eq, sumPolylineVertices, getNumberOfVertices, List.get?, exOk]
    rw [h] at hok
    simp [exOk] at hok
  · have h2 := (specC4 rand0 (1 / 2) ex7 1 1 0 out h).1
    simp [Except.toOption, h2]

/-- C7 witness: the amended theorem applied to a concrete successful
allocation (`ex7`, `T = 1`), feature index 1. -/
theorem specC7w :
    (initializeTracks rand0 (1 / 2) ex7 1 ⟨0, 1, 0⟩).toOption.map
        (fun r => decide (countOn r.records 1 =
          (countLoop 1 (sumPolylineVertices ex7) ex7 0).getD 1 0)) = some true := by
  rcases h : initializeTracks rand0 (1 / 2) ex7 1 ⟨0, 1, 0⟩ with e | out
  · exfalso
    have hok : exOk (initializeTracks rand0 (1 / 2) ex7 1 ⟨0, 1, 0⟩) = true := by
      norm_num [ex7, initializeTracks, initLoop, allocFeature, placeTrack, getNextTrackStart,
        quotaFor_eq, spacingFor_eq, sumPolylineVertices, getNumberOfVertices, List.get?, exOk]
    rw [h] at hok
    simp [exOk] at hok
  · have h2 := (specC7 rand0 (1 / 2) ex7 1 1 0 out h).1 1
    simp [Except.toOption, h2]

/-- C9 witness: the amended theorem applied to the concrete configuration
`cfg3` (`pageSize = 2`, `trackedAssets = 3`). -/
theorem specC9w :
    (0 : ℕ) < 2 ∧ (0 : ℕ) < 3 ∧
    (next rand0 (mkService cfg3)).toOption.map Prod.fst
      = some ⟨List.replicate 2 none⟩ := by
  refine ⟨by norm_num, by norm_num, ?_⟩
  have h := specC9 rand0 cfg3 (by norm_num [cfg3]) (by norm_num [cfg3])
  simpa [cfg3] using h

/-- C10 witness: the theorem applied to the concrete bad feature `bad1` and
the concrete good geometry `ex7`. -/
theorem specC10w :
    allocFeature rand0 (1 / 2) 0 bad1 0 1 0 0 ⟨0, 1, 0⟩ = .error ()
    ∧ initializeTracks rand0 (1 / 2) [bad1] 1 ⟨0, 1, 0⟩ = .error ()
    ∧ exOk (initializeTracks rand0 (1 / 2) ex7 1 ⟨0, 1, 0⟩) = true := by
  refine ⟨?_, ?_, ?_⟩
  · exact specC10.1 rand0 (1 / 2) 0 bad1 0 1 ⟨0, 1, 0⟩
      (by norm_num [bad1, List.headI]) (by norm_num)
  · exact specC10.2.1 rand0 (1 / 2)
  · refine specC10.2.2 rand0 (1 / 2) ex7 1 ⟨0, 1, 0⟩ ?_
    intro p hp
    simp [ex7] at hp
    rcases hp with hp | hp <;> subst hp <;> norm_num [List.headI]

/-- C6 witness: the theorem applied at `trackedAssets = 25`, `pageSize = 10`
(cycle length 3): request 3 of the second cycle has offset zero and request 4
does not; the no-tick branch at a concrete page-1 state; and the tick-counter
update on a concrete first-of-cycle request. -/
theorem specC6w :
    pageIter 25 10 3 * 10 = 0 ∧ 0 < pageIter 25 10 4 * 10 ∧
    next rand0 ⟨1, 1, cfg3, [], [], none, 0, 0⟩ =
      .ok (⟨jsPageArray ([] : List PointFeature) 2 3⟩, ⟨1, 0, cfg3, [], [], none, 0, 0⟩) ∧
    (next rand0 (mkService cfg3)).toOption.map (fun x => x.2.numCycles) = some 1 := by
  have hc : cyc 25 10 = 3 := by norm_num [cyc]
  refine ⟨?_, ?_, ?_, ?_⟩
  · have h1 := specC6.1 25 10 (by norm_num) (by norm_num) 1 0 (by rw [hc]; norm_num)
    rw [hc] at h1
    norm_num at h1
    exact h1
  · have h1 := specC6.1 25 10 (by norm_num) (by norm_num) 1 1 (by rw [hc]; norm_num)
    rw [hc] at h1
    norm_num at h1
    have h2 : pageIter 25 10 4 * 10 ≠ 0 := by simpa using h1
    exact Nat.pos_of_ne_zero h2
  · have h1 := specC6.2.1 rand0 ⟨1, 1, cfg3, [], [], none, 0, 0⟩ (by norm_num [cfg3])
    simpa [cfg3, nextPageNum] using h1
  · rcases hnx : next rand0 (mkService cfg3) with e | pr
    · exfalso
      have hok : exOk (next rand0 (mkService cfg3)) = true := by rfl
      rw [hnx] at hok
      simp [exOk] at hok
    · rcases pr with ⟨p, s2⟩
      have h3 := specC6.2.2 rand0 (mkService cfg3) p s2 rfl hnx
      simp [h3, mkService, NumCyclesBetweenActiveUpdate, Except.toOption]

end MockService
